import Mathlib

/-!
Shallow embedding of the layout-aware PDF translation pipeline
(tools/extract_il_v2.py, tools/translate_il_v2.py, tools/render_pdf_v2.py,
tools/render_pdf.py, tools/validate_render.py), together with theorems
settling the specification claims about it.

Conventions of the embedding:
* Python floats are modelled as rationals.
* Python strings are modelled as Lean strings; the string operations used
  by the pipeline (lower, strip, replace of a single character, startswith,
  substring membership, join) are defined structurally on the character
  list so that concrete runs evaluate inside the kernel.
* The external services (PyMuPDF text layout, the translation HTTP call)
  are modelled as explicit oracle parameters: the layout engine as a
  function from font size and line height to a success flag, the
  translation service as a function from attempt number to either an
  exception or a parsed response list.
* Fallible code returns Option; an exception raised and caught by the
  retry loop is the value none.
-/

/-! ## Python string primitives -/

/-- Lowercase a string character by character, as content.lower() is used by
the classifier (ASCII case mapping suffices for the markers involved). -/
def lowerS (s : String) : String := String.mk (s.data.map Char.toLower)

/-- Structural test that the second list is an initial segment of the first. -/
def startsWithL : List Char → List Char → Bool
  | _, [] => true
  | [], _ :: _ => false
  | c :: cs, p :: ps => c == p && startsWithL cs ps

/-- Python str.startswith. -/
def startsWithS (s pat : String) : Bool := startsWithL s.data pat.data

/-- Python substring membership (pat in s). -/
def containsS (s pat : String) : Bool :=
  (List.range (s.data.length + 1)).any fun i => startsWithL (s.data.drop i) pat.data

/-- Python ASCII whitespace, as stripped by str.strip(). -/
def pyIsSpace (c : Char) : Bool :=
  c == ' ' || c == '\t' || c == '\n' || c == '\r' || c == '\x0b' || c == '\x0c'

/-- Python str.strip(). -/
def strip (s : String) : String :=
  String.mk (((s.data.dropWhile pyIsSpace).reverse.dropWhile pyIsSpace).reverse)

/-- Python str.replace(c, r) for a single-character pattern. -/
def replaceChar (c r : Char) (s : String) : String :=
  String.mk (s.data.map fun a => if a == c then r else a)

/-- Python sep.join(parts). -/
def joinWith (sep : String) : List String → String
  | [] => ""
  | [x] => x
  | x :: y :: xs => x ++ sep ++ joinWith sep (y :: xs)

/-- Python int() on a float: truncation toward zero. -/
def pyint (q : ℚ) : ℤ := if 0 ≤ q then ⌊q⌋ else -⌊-q⌋

/-- Python round(x, d) where m = 10 ^ d: round to the nearest multiple of
1 / m, ties to even (banker's rounding). -/
def pyround (m : ℕ) (q : ℚ) : ℚ :=
  let r := q * m
  let n := ⌊r⌋
  let frac := r - n
  let k : ℤ :=
    if frac < 1/2 then n
    else if 1/2 < frac then n + 1
    else if n % 2 = 0 then n else n + 1
  (k : ℚ) / m

/-- Most frequent element of a list, first-seen order breaking ties, as
collections.Counter(l).most_common(1)[0][0] behaves; dflt is returned only
for the empty list, which the callers rule out. -/
def mostCommon [DecidableEq α] (l : List α) (dflt : α) : α :=
  (l.argmax fun a => l.count a).getD dflt

/-- Hexadecimal digit character, lowercase. -/
def hexDigitChar (n : ℕ) : Char :=
  if n < 10 then Char.ofNat (48 + n) else Char.ofNat (87 + n)

/-- Two-digit lowercase hexadecimal rendering of a byte, as f-string 02x. -/
def hex2 (n : ℕ) : String := String.mk [hexDigitChar (n / 16 % 16), hexDigitChar (n % 16)]

/-! ## Data model of the intermediate document (section 3 of the spec) -/

/-- Bounding box, a rectangle given by its two corner coordinates. The
extractor stores PDF-native (bottom-left origin) coordinates in blocks,
while the raw PyMuPDF boxes it reads are top-left origin. -/
structure BBox where
  x0 : ℚ
  y0 : ℚ
  x1 : ℚ
  y1 : ℚ
deriving DecidableEq

/-- Dominant style record attached to every extracted block. -/
structure Style where
  size : ℚ
  color : String
  bold : Bool
  italic : Bool
  serif : Bool
  font_name : String
deriving DecidableEq

/-- Free-form metadata attached by the v2 extractor. -/
structure Metadata where
  page : ℕ
  width : ℚ
  height : ℚ
deriving DecidableEq

/-- One block of the intermediate document. -/
structure Block where
  id : String
  type : String
  content : String
  bbox : BBox
  style : Style
  metadata : Metadata
deriving DecidableEq

/-- One page entry of the intermediate document. -/
structure PageData where
  page_index : ℕ
  width : ℚ
  height : ℚ
  blocks : List Block
deriving DecidableEq

/-! ## extract_il_v2.py: raw PyMuPDF input -/

/-- One styled text run (a PyMuPDF span). -/
structure Span where
  text : String
  size : ℚ
  color : ℕ
  font : String
deriving DecidableEq

/-- One raw line, a list of spans. -/
structure RawLine where
  spans : List Span
deriving DecidableEq

/-- One raw PyMuPDF block: type 0 is text, anything else is an image. -/
structure RawBlock where
  type : ℕ
  bbox : BBox
  lines : List RawLine
deriving DecidableEq

/-- One raw page as enumerated by the document library. -/
structure RawPage where
  width : ℚ
  height : ℚ
  blocks : List RawBlock
deriving DecidableEq

/-- Result of get_dominant_style: the joined content and the aggregate style. -/
structure StyleData where
  content : String
  style : Style
deriving DecidableEq

/-- get_dominant_style of extract_il_v2.py: mean span size, most frequent
color (converted to a hex string) and font, flag bits from substring tests
on the font name, and the space-joined stripped text. Returns none when the
block has no spans. -/
def get_dominant_style (block_dict : RawBlock) : Option StyleData :=
  let spans := (block_dict.lines.map RawLine.spans).flatten
  let text_parts := spans.map Span.text
  let sizes := spans.map Span.size
  let colors := spans.map Span.color
  let fonts := spans.map Span.font
  if sizes.isEmpty then none
  else
    let avg_size := sizes.sum / (sizes.length : ℚ)
    let common_color_int := mostCommon colors 0
    let r := common_color_int / 65536 % 256
    let g := common_color_int / 256 % 256
    let b := common_color_int % 256
    let hex_color := "#" ++ hex2 r ++ hex2 g ++ hex2 b
    let font_name := lowerS (mostCommon fonts "")
    let is_bold := containsS font_name "bold" || containsS font_name "black"
    let is_italic := containsS font_name "italic" || containsS font_name "oblique"
    let is_serif := containsS font_name "serif" || containsS font_name "times"
    let content := strip (joinWith " " text_parts)
    some
      { content := content
        style :=
          { size := pyround 10 avg_size
            color := hex_color
            bold := is_bold
            italic := is_italic
            serif := is_serif
            font_name := font_name } }

/-- classify_block of extract_il_v2.py: the ordered geometry and typography
heuristic. The bounding box is in PyMuPDF (top-left origin) coordinates, so
y0 close to 0 means the page top. The page index argument is kept from the
source signature although the body does not read it. -/
def classify_block (style_data : StyleData) (bbox : BBox) (_page_idx : ℕ) : String :=
  let width := bbox.x1 - bbox.x0
  let s := style_data.style
  let content_lower := lowerS style_data.content
  if 14 < s.size ∨ (11 < s.size ∧ s.bold = true) then "heading"
  else if width < 250 ∧ (350 < bbox.x0 ∨ bbox.x0 < 100) then "sidebar"
  else if (["figure", "table", "fig", "tab", "圖", "表"].any fun kw =>
      startsWithS content_lower kw) then "caption"
  else if s.size < 10 ∧ width < 150 then "label"
  else if bbox.y0 < 50 then "header"
  else if 650 < bbox.y0 then "footer"
  else "body"

/-- Block id generated by extract_pdf_style_aware:
p(page)_x(int x0)_y(int (page height - y0)), with y0 the raw top edge. -/
def blockId (p_idx : ℕ) (x0 y0 page_h : ℚ) : String :=
  "p" ++ toString p_idx ++ "_x" ++ toString (pyint x0) ++ "_y" ++ toString (pyint (page_h - y0))

/-- Per-page body of extract_pdf_style_aware: skip non-text raw blocks and
blocks with no spans or empty content, classify the rest, convert the box to
PDF-native coordinates, assign the stable id, and attach metadata. -/
def extractPage (p_idx : ℕ) (page : RawPage) : PageData :=
  { page_index := p_idx
    width := page.width
    height := page.height
    blocks := page.blocks.filterMap fun b =>
      if b.type ≠ 0 then none
      else
        match get_dominant_style b with
        | none => none
        | some style_data =>
          if style_data.content = "" then none
          else
            let bb := b.bbox
            let pdf_bbox : BBox := ⟨bb.x0, page.height - bb.y1, bb.x1, page.height - bb.y0⟩
            some
              { id := blockId p_idx bb.x0 bb.y0 page.height
                type := classify_block style_data bb p_idx
                bbox := pdf_bbox
                content := style_data.content
                style := style_data.style
                metadata :=
                  { page := p_idx
                    width := pyround 100 (bb.x1 - bb.x0)
                    height := pyround 100 (bb.y1 - bb.y0) } } }

/-- Page loop of extract_pdf_style_aware, carrying the running page index. -/
def extractPagesFrom (p_idx : ℕ) : List RawPage → List PageData
  | [] => []
  | p :: ps => extractPage p_idx p :: extractPagesFrom (p_idx + 1) ps

/-- extract_pdf_style_aware of extract_il_v2.py, restricted to the pages it
emits (the file header fields carry no claim content). -/
def extract_pdf_style_aware (pages : List RawPage) : List PageData :=
  extractPagesFrom 0 pages

/-! ## translate_il_v2.py -/

/-- One id/type/content triple of the request payload or of the parsed
service response (the type field of a response item is never read back). -/
structure TransItem where
  id : String
  content : String
deriving DecidableEq

/-- Block types sent to translation by translate_page_blocks. -/
def translatable_types : List String :=
  ["body", "heading", "caption", "sidebar", "label", "table", "footer", "header"]

/-- Filter applied by translate_page_blocks: a translatable type and a
non-empty content field. -/
def isTranslatable (b : Block) : Bool :=
  translatable_types.contains b.type && b.content != ""

/-- The translatable sublist of a page's blocks, in page order. -/
def translatableOf (blocks : List Block) : List Block := blocks.filter isTranslatable

/-- Validation that at least one returned content holds a CJK character in
the range U+4E00 to U+9FFF, as the has_chinese check does. -/
def hasChinese (items : List TransItem) : Bool :=
  items.any fun item => item.content.data.any fun c =>
    (0x4e00 : UInt32) ≤ c.val && c.val ≤ (0x9fff : UInt32)

/-- Lookup in the merge dictionary built from the response; a later item
with the same id overwrites an earlier one, as the dict comprehension does. -/
def result_lookup (items : List TransItem) (id : String) : Option String :=
  (items.reverse.find? fun item => item.id == id).map TransItem.content

/-- Merge step of translate_page_blocks: walk the translatable blocks in
order, keep exactly those whose id is a key of the response dictionary, and
rebuild them with the stripped, newline-free translated content while the
id, type, bbox, style and metadata fields are taken from the original. -/
def mergeItems (translatable : List Block) (items : List TransItem) : List Block :=
  translatable.filterMap fun block =>
    match result_lookup items block.id with
    | none => none
    | some t => some { block with content := replaceChar '\n' ' ' (strip t) }

/-- One attempt of the retry loop: an exception from the call or the parse
is none, an empty response list raises, a response without CJK characters
raises, anything else merges (a cardinality mismatch only prints a warning
and still merges). -/
def attemptOutcome (translatable : List Block) (resp : Except Unit (List TransItem)) :
    Option (List Block) :=
  match resp with
  | .error _ => none
  | .ok items =>
    if items.isEmpty then none
    else if hasChinese items then some (mergeItems translatable items) else none

/-- Retry loop of translate_page_blocks: run attempts k, k+1, ... while
fuel remains, returning the first successful merge, none on exhaustion. -/
def retryFrom (translatable : List Block) (svc : ℕ → Except Unit (List TransItem)) :
    ℕ → ℕ → Option (List Block)
  | _, 0 => none
  | attempt, r + 1 =>
    match attemptOutcome translatable (svc attempt) with
    | some res => some res
    | none => retryFrom translatable svc (attempt + 1) r

/-- Fixed retry ceiling of translate_page_blocks. -/
def max_retries : ℕ := 5

/-- translate_page_blocks of translate_il_v2.py, the service modelled as a
function from attempt number to an exception or a parsed response. An empty
translatable list returns the empty list without calling the service; the
value none is the page-failed outcome after max_retries attempts. -/
def translate_page_blocks (blocks : List Block) (svc : ℕ → Except Unit (List TransItem)) :
    Option (List Block) :=
  let translatable := translatableOf blocks
  if translatable.isEmpty then some []
  else retryFrom translatable svc 0 max_retries

/-- Page loop of translate_il_v2: a failed page is appended to the output
unchanged and its 1-based page number is appended to the failed list; a
successful page is rebuilt with the merged blocks and the original index,
width and height. Returns the output pages and the failed-pages list. -/
def translate_il_v2 (svc : ℕ → ℕ → Except Unit (List TransItem)) :
    List PageData → List PageData × List ℕ
  | [] => ([], [])
  | p :: rest =>
    let result := translate_page_blocks p.blocks (svc p.page_index)
    let done := translate_il_v2 svc rest
    match result with
    | none => (p :: done.1, (p.page_index + 1) :: done.2)
    | some res => ({ p with blocks := res } :: done.1, done.2)

/-! ## Stage hand-off file names (cited at the stage boundaries) -/

/-- Output file name set in extract_pdf_style_aware. -/
def extract_il_v2_output_file : String := "intermediate_layer_v2.json"

/-- Input file name set in translate_il_v2. -/
def translate_il_v2_input_file : String := "intermediate_layer.json"

/-- Output file name set in translate_il_v2. -/
def translate_il_v2_output_file : String := "translated_layer.json"

/-- Translation input file name set in render_pdf_style_aware. -/
def render_pdf_v2_input_json : String := "translated_layer.json"

/-- Intermediate-document file name read by validate_rendering. -/
def validate_render_il_file : String := "intermediate_layer_v2.json"

/-! ## render_pdf_v2.py -/

/-- select_font of render_pdf_v2.py. -/
def select_font (block_style : Style) (block_type : String) : String :=
  if block_style.bold || block_type == "heading" then "sans-bold"
  else if block_type == "body" then "serif"
  else "sans-reg"

/-- get_alignment of render_pdf_v2.py (0 left, 1 center, 2 right, 3 justified). -/
def get_alignment (block_type : String) : ℕ :=
  if ["label", "caption"].contains block_type then 1
  else if ["heading", "sidebar", "table", "header", "footer"].contains block_type then 0
  else if block_type == "body" then 3
  else 0

/-- clean_text of render_pdf_v2.py: replace newlines by spaces, then strip. -/
def clean_text (text : String) : String := strip (replaceChar '\n' ' ' text)

/-- Floor font size of the v2 fitting loop. -/
def min_size : ℚ := 3

/-- Adaptive decrement of the v2 fitting loop: half a point above 10, a
quarter point above 6, a tenth of a point below. -/
def next_size (fontsize : ℚ) : ℚ :=
  if 10 < fontsize then fontsize - 1/2
  else if 6 < fontsize then fontsize - 1/4
  else fontsize - 1/10

/-- Decrement of the v1 fitting loop in render_pdf.py, always half a point. -/
def next_size_v1 (fontsize : ℚ) : ℚ := fontsize - 1/2

/-- Floor font size of the v1 fitting loop. -/
def min_size_v1 : ℚ := 6

/-- Adaptive line height chosen inside the v2 loop from the box height and
the current font size. -/
def lineheightFor (height fontsize : ℚ) : ℚ :=
  if height < 20 then 1
  else if fontsize < 8 then 21/20
  else 6/5

/-- Starting font size heuristic of the v2 typesetting pass, from the block
type, the pre-padding box dimensions, the extracted style size, the page
index and the padded box top edge (main-title detection). -/
def start_size (b_type : String) (width height original_size : ℚ) (page_idx : ℕ)
    (rect_y0 : ℚ) : ℚ :=
  let s : ℚ :=
    if b_type == "heading" then
      if page_idx = 0 ∧ rect_y0 < 200 then 24 else 16
    else if b_type == "caption" then 9
    else if b_type == "body" then
      if width < 130 ∨ height < 20 then 9 else 21/2
    else if ["label", "sidebar", "table", "footer", "header"].contains b_type then
      let is_diagram_label :=
        b_type == "label" ∧ width < 60 ∧ height < 18 ∧ original_size < 11 ∧ 6 ≤ original_size
      if is_diagram_label then max original_size 7 else 9
    else 21/2
  if width < 40 ∧ height < 15 then
    if b_type == "label" ∧ original_size < 11 ∧ 6 ≤ original_size then max s 7 else min s 7
  else s

/-- Generic fuel-indexed fitting loop: try the current size when it is at
least the floor, recurse on the decremented size otherwise. Returns the
first fitting size, none when every size down to the floor overflowed. -/
def fitLoopGen (next : ℚ → ℚ) (lo : ℚ) (fits : ℚ → Bool) : ℕ → ℚ → Option ℚ
  | 0, _ => none
  | n + 1, f =>
    if lo ≤ f then
      if fits f then some f else fitLoopGen next lo fits n (next f)
    else none

/-- The font sizes the generic loop attempts, in order. -/
def attemptsGen (next : ℚ → ℚ) (lo : ℚ) (fits : ℚ → Bool) : ℕ → ℚ → List ℚ
  | 0, _ => []
  | n + 1, f =>
    if lo ≤ f then
      f :: (if fits f then [] else attemptsGen next lo fits n (next f))
    else []

/-- Fuel sufficient for a loop with floor lo whose decrements are at least
d, started at size f. -/
def fuelGen (lo d f : ℚ) : ℕ := (⌊(f - lo) / d⌋ + 1).toNat

/-- One record of the rendered_blocks list of the render log (the JSON
formats the box dimensions as a width by height string; the two numbers are
kept here). -/
structure FittedRec where
  id : String
  page : ℕ
  type : String
  fontsize : ℚ
  target_size : ℚ
  rect_w : ℚ
  rect_h : ℚ
deriving DecidableEq

/-- One record of the failed_blocks list of the render log. -/
structure FailedRec where
  id : String
  page : ℕ
  type : String
  content_preview : String
  rect_w : ℚ
  rect_h : ℚ
  target_size : ℚ
deriving DecidableEq

/-- Outcome of the per-block typesetting pass: skipped (image or chart or
empty text), fitted at a recorded size, or force-rendered at the given size
and line height after logging a failed record. -/
inductive RenderOutcome where
  | skipped : RenderOutcome
  | fitted : FittedRec → RenderOutcome
  | forced : FailedRec → ℚ → ℚ → RenderOutcome
deriving DecidableEq

/-- Content preview stored in a failed record: the first 50 characters,
with an ellipsis when the text is longer. -/
def preview50 (t : String) : String :=
  String.mk (t.data.take 50) ++ (if 50 < t.data.length then "..." else "")

/-- Pre-padding box width of a block, as computed from the converted
rectangle before the 2-point horizontal inset. -/
def bwidth (b : Block) : ℚ := b.bbox.x1 - b.bbox.x0

/-- Pre-padding box height of a block, as computed from the converted
rectangle before the 1-point vertical inset. -/
def bheight (b : Block) : ℚ := b.bbox.y1 - b.bbox.y0

/-- Starting size of a block in the v2 renderer; the padded rectangle top
edge is page height minus the stored top coordinate plus the 1-point inset. -/
def targetSizeOf (b : Block) (page_idx : ℕ) (page_h : ℚ) : ℚ :=
  start_size b.type (bwidth b) (bheight b) b.style.size page_idx (page_h - b.bbox.y1 + 1)

/-- Success test at a given size: the layout oracle applied to the size and
the line height the loop would choose at that size. The oracle stands for
insert_textbox returning a non-negative remainder on the fixed padded
rectangle, text, font, color and alignment of the block. -/
def fitsAt (fits : ℚ → ℚ → Bool) (height : ℚ) : ℚ → Bool :=
  fun f => fits f (lineheightFor height f)

/-- Per-block body of the typesetting pass of render_pdf_style_aware:
skip image and chart blocks and empty cleaned text, compute the starting
size, run the shrink-to-fit loop, and either log a rendered record or log
exactly one failed record and force-render at the floor size with line
height 1. -/
def renderBlockV2 (fits : ℚ → ℚ → Bool) (page_idx : ℕ) (page_h : ℚ) (b : Block) :
    RenderOutcome :=
  if b.type == "image" || b.type == "chart" then .skipped
  else
    let text := clean_text b.content
    if text == "" then .skipped
    else
      let width := bwidth b
      let height := bheight b
      let target_size := targetSizeOf b page_idx page_h
      match fitLoopGen next_size min_size (fitsAt fits height)
          (fuelGen min_size (1/10) target_size) target_size with
      | some s => .fitted ⟨b.id, page_idx + 1, b.type, s, target_size, width, height⟩
      | none =>
        .forced ⟨b.id, page_idx + 1, b.type, preview50 text, width, height, target_size⟩
          min_size 1

/-! ## validate_render.py -/

/-- Render log file consumed by the validator. -/
structure RenderLogFile where
  rendered_blocks : List FittedRec
  failed_blocks : List FailedRec
deriving DecidableEq

/-- The text blocks of the intermediate document: every block whose type is
not image and not chart, page order preserved. -/
def textBlocks (il_pages : List PageData) : List Block :=
  ((il_pages.map PageData.blocks).flatten).filter fun b =>
    !(["image", "chart"].contains b.type)

/-- total_extracted of validate_rendering: text blocks counted with
multiplicity. -/
def total_extracted (il_pages : List PageData) : ℕ := (textBlocks il_pages).length

/-- extracted_ids of validate_rendering, a set. -/
def extracted_ids (il_pages : List PageData) : Finset String :=
  ((textBlocks il_pages).map Block.id).toFinset

/-- rendered_ids of validate_rendering, a set. -/
def rendered_ids (log : RenderLogFile) : Finset String :=
  (log.rendered_blocks.map FittedRec.id).toFinset

/-- failed_ids of validate_rendering, a set. -/
def failed_ids (log : RenderLogFile) : Finset String :=
  (log.failed_blocks.map FailedRec.id).toFinset

/-- missing_ids of validate_rendering: extracted ids in neither log bucket. -/
def missing_ids (il_pages : List PageData) (log : RenderLogFile) : Finset String :=
  (extracted_ids il_pages \ rendered_ids log) \ failed_ids log

/-- success_rate of validate_rendering, a percentage, 0 when nothing was
extracted. -/
def success_rate (il_pages : List PageData) (log : RenderLogFile) : ℚ :=
  if 0 < total_extracted il_pages then
    ((rendered_ids log).card : ℚ) / (total_extracted il_pages : ℚ) * 100
  else 0

/-- validate_rendering of validate_render.py: pass exactly when the success
rate reaches the fixed 95 percent threshold. -/
def validate_rendering (il_pages : List PageData) (log : RenderLogFile) : Bool :=
  decide (95 ≤ success_rate il_pages log)

/-! ## Lemmas about the generic fitting loop -/

lemma attemptsGen_le (next : ℚ → ℚ) (lo : ℚ) (fits : ℚ → Bool) (d : ℚ) (hd : 0 < d)
    (hnext : ∀ f, next f ≤ f - d) :
    ∀ (n : ℕ) (f : ℚ), ∀ s ∈ attemptsGen next lo fits n f, s ≤ f := by
  intro n
  induction n with
  | zero => intro f s hs; simp [attemptsGen] at hs
  | succ n ih =>
    intro f s hs
    simp only [attemptsGen] at hs
    by_cases hf : lo ≤ f
    · rw [if_pos hf] at hs
      rcases List.mem_cons.mp hs with h | h
      · exact le_of_eq h
      · by_cases hfit : fits f = true
        · rw [if_pos hfit] at h
          simp at h
        · rw [if_neg hfit] at h
          have h1 := ih (next f) s h
          have h2 := hnext f
          linarith
    · rw [if_neg hf] at hs
      simp at hs

lemma attemptsGen_pairwise (next : ℚ → ℚ) (lo : ℚ) (fits : ℚ → Bool) (d : ℚ) (hd : 0 < d)
    (hnext : ∀ f, next f ≤ f - d) :
    ∀ (n : ℕ) (f : ℚ), List.Pairwise (fun a b => b < a) (attemptsGen next lo fits n f) := by
  intro n
  induction n with
  | zero => intro f; simp [attemptsGen]
  | succ n ih =>
    intro f
    simp only [attemptsGen]
    by_cases hf : lo ≤ f
    · rw [if_pos hf]
      rw [List.pairwise_cons]
      constructor
      · intro s hs
        by_cases hfit : fits f = true
        · rw [if_pos hfit] at hs
          simp at hs
        · rw [if_neg hfit] at hs
          have h1 := attemptsGen_le next lo fits d hd hnext n (next f) s hs
          have h2 := hnext f
          linarith
      · by_cases hfit : fits f = true
        · rw [if_pos hfit]; exact List.Pairwise.nil
        · rw [if_neg hfit]; exact ih (next f)
    · rw [if_neg hf]
      exact List.Pairwise.nil

lemma attemptsGen_lower (next : ℚ → ℚ) (lo : ℚ) (fits : ℚ → Bool) :
    ∀ (n : ℕ) (f : ℚ), ∀ s ∈ attemptsGen next lo fits n f, lo ≤ s := by
  intro n
  induction n with
  | zero => intro f s hs; simp [attemptsGen] at hs
  | succ n ih =>
    intro f s hs
    simp only [attemptsGen] at hs
    by_cases hf : lo ≤ f
    · rw [if_pos hf] at hs
      rcases List.mem_cons.mp hs with h | h
      · exact h ▸ hf
      · by_cases hfit : fits f = true
        · rw [if_pos hfit] at h; simp at h
        · rw [if_neg hfit] at h
          exact ih (next f) s h
    · rw [if_neg hf] at hs
      simp at hs

lemma fuelGen_next_lt (next : ℚ → ℚ) (lo d : ℚ) (hd : 0 < d)
    (hnext : ∀ f, next f ≤ f - d) {f : ℚ} (hf : lo ≤ f) :
    fuelGen lo d (next f) < fuelGen lo d f := by
  have h2 : next f - lo ≤ f - lo - d := by have := hnext f; linarith
  have h1 : (next f - lo) / d ≤ (f - lo) / d - 1 := by
    have hstep : (next f - lo) / d ≤ (f - lo - d) / d := by
      rw [div_eq_mul_inv, div_eq_mul_inv]
      exact mul_le_mul_of_nonneg_right h2 (by positivity)
    have heq : (f - lo - d) / d = (f - lo) / d - 1 := by
      rw [sub_div, div_self (ne_of_gt hd)]
    linarith [hstep, le_of_eq heq]
  have h3 : ⌊(next f - lo) / d⌋ ≤ ⌊(f - lo) / d⌋ - 1 := by
    have := Int.floor_mono h1
    have hsub : ⌊(f - lo) / d - 1⌋ = ⌊(f - lo) / d⌋ - 1 := by
      have := Int.floor_sub_int ((f - lo) / d) 1
      exact_mod_cast this
    omega
  have h4 : 0 ≤ ⌊(f - lo) / d⌋ :=
    Int.floor_nonneg.mpr (div_nonneg (by linarith) (le_of_lt hd))
  unfold fuelGen
  omega

lemma fuelGen_zero_not_le (lo d f : ℚ) (hd : 0 < d) (h : fuelGen lo d f = 0) : ¬ lo ≤ f := by
  intro hf
  have h4 : 0 ≤ ⌊(f - lo) / d⌋ :=
    Int.floor_nonneg.mpr (div_nonneg (by linarith) (le_of_lt hd))
  unfold fuelGen at h
  omega

lemma attemptsGen_stable (next : ℚ → ℚ) (lo : ℚ) (fits : ℚ → Bool) (d : ℚ) (hd : 0 < d)
    (hnext : ∀ f, next f ≤ f - d) :
    ∀ (n : ℕ) (f : ℚ) (m : ℕ), fuelGen lo d f ≤ n →
      attemptsGen next lo fits (n + m) f = attemptsGen next lo fits n f := by
  intro n
  induction n with
  | zero =>
    intro f m hfuel
    have hf : ¬ lo ≤ f := fuelGen_zero_not_le lo d f hd (Nat.le_zero.mp hfuel)
    cases m with
    | zero => rfl
    | succ m => simp only [Nat.zero_add, attemptsGen, if_neg hf]
  | succ n ih =>
    intro f m hfuel
    have hrw : n + 1 + m = (n + m) + 1 := by omega
    rw [hrw]
    simp only [attemptsGen]
    by_cases hf : lo ≤ f
    · rw [if_pos hf, if_pos hf]
      by_cases hfit : fits f = true
      · rw [if_pos hfit, if_pos hfit]
      · rw [if_neg hfit, if_neg hfit]
        have hlt := fuelGen_next_lt next lo d hd hnext hf
        exact congrArg (f :: ·) (ih (next f) m (by omega))
    · rw [if_neg hf, if_neg hf]

lemma fitLoopGen_eq_none (next : ℚ → ℚ) (lo : ℚ) (fits : ℚ → Bool) :
    ∀ (n : ℕ) (f : ℚ), (∀ s ∈ attemptsGen next lo fits n f, fits s = false) →
      fitLoopGen next lo fits n f = none := by
  intro n
  induction n with
  | zero => intro f _; rfl
  | succ n ih =>
    intro f h
    simp only [fitLoopGen]
    by_cases hf : lo ≤ f
    · rw [if_pos hf]
      have hhead : fits f = false := by
        apply h
        simp only [attemptsGen, if_pos hf]
        exact List.mem_cons_self f _
      rw [hhead]
      simp only [Bool.false_eq_true, if_false]
      apply ih
      intro s hs
      apply h
      simp only [attemptsGen, if_pos hf]
      exact List.mem_cons_of_mem f (by rwa [if_neg (by simp [hhead])])
    · rw [if_neg hf]

lemma next_size_le (f : ℚ) : next_size f ≤ f - 1/10 := by
  unfold next_size
  split_ifs <;> linarith

lemma next_size_v1_le (f : ℚ) : next_size_v1 f ≤ f - 1/2 := by
  unfold next_size_v1
  linarith

/-! ## Lemmas about the translation retry loop and the merge -/

lemma retryFrom_none (t : List Block) (svc : ℕ → Except Unit (List TransItem)) :
    ∀ (r a : ℕ), (∀ j, j < r → attemptOutcome t (svc (a + j)) = none) →
      retryFrom t svc a r = none := by
  intro r
  induction r with
  | zero => intro a _; rfl
  | succ r ih =>
    intro a h
    have h0 : attemptOutcome t (svc a) = none := h 0 (Nat.succ_pos r)
    simp only [retryFrom, h0]
    apply ih
    intro j hj
    have := h (j + 1) (by omega)
    rwa [show a + (j + 1) = a + 1 + j by omega] at this

lemma retryFrom_skip (t : List Block) (svc : ℕ → Except Unit (List TransItem)) :
    ∀ (n a r : ℕ), (∀ j, j < n → attemptOutcome t (svc (a + j)) = none) →
      retryFrom t svc a (n + r) = retryFrom t svc (a + n) r := by
  intro n
  induction n with
  | zero => intro a r _; rw [Nat.zero_add, Nat.add_zero]
  | succ n ih =>
    intro a r h
    have h0 : attemptOutcome t (svc a) = none := h 0 (Nat.succ_pos n)
    have hrw : n + 1 + r = (n + r) + 1 := by omega
    rw [hrw]
    simp only [retryFrom, h0]
    rw [ih (a + 1) r (fun j hj => by
      have := h (j + 1) (by omega)
      rwa [show a + (j + 1) = a + 1 + j by omega] at this)]
    rw [show a + 1 + n = a + (n + 1) by omega]

lemma retryFrom_shape (t : List Block) (svc : ℕ → Except Unit (List TransItem)) :
    ∀ (r a : ℕ) (out : List Block), retryFrom t svc a r = some out →
      ∃ k, attemptOutcome t (svc k) = some out := by
  intro r
  induction r with
  | zero => intro a out h; simp [retryFrom] at h
  | succ r ih =>
    intro a out h
    simp only [retryFrom] at h
    cases hatt : attemptOutcome t (svc a) with
    | some res =>
      rw [hatt] at h
      exact ⟨a, by rw [hatt, Option.some_inj.mp h]⟩
    | none =>
      rw [hatt] at h
      exact ih (a + 1) out h

lemma attemptOutcome_some (t : List Block) (resp : Except Unit (List TransItem))
    (out : List Block) (h : attemptOutcome t resp = some out) :
    ∃ items, resp = Except.ok items ∧ out = mergeItems t items := by
  cases resp with
  | error e => simp [attemptOutcome] at h
  | ok items =>
    refine ⟨items, rfl, ?_⟩
    simp only [attemptOutcome] at h
    split_ifs at h
    exact (Option.some_inj.mp h).symm

lemma result_lookup_none_iff (items : List TransItem) (id : String) :
    result_lookup items id = none ↔ (items.any fun it => it.id == id) = false := by
  simp [result_lookup, List.find?_eq_none, List.any_eq_false, List.mem_reverse]

lemma mergeItems_map_id (items : List TransItem) :
    ∀ (t : List Block), (mergeItems t items).map Block.id =
      ((t.filter fun b => items.any fun it => it.id == b.id).map Block.id) := by
  intro t
  induction t with
  | nil => rfl
  | cons b bs ih =>
    simp only [mergeItems, List.filterMap_cons] at *
    cases hl : result_lookup items b.id with
    | none =>
      have hcond : (items.any fun it => it.id == b.id) = false :=
        (result_lookup_none_iff items b.id).mp hl
      rw [List.filter_cons]
      simp only [hcond, Bool.false_eq_true, if_false]
      exact ih
    | some c =>
      have hcond : (items.any fun it => it.id == b.id) = true := by
        by_contra hfalse
        rw [Bool.not_eq_true] at hfalse
        rw [(result_lookup_none_iff items b.id).mpr hfalse] at hl
        exact Option.noConfusion hl
      rw [List.filter_cons]
      simp only [hcond, if_true, List.map_cons]
      exact congrArg (List.cons b.id) ih

lemma translate_page_blocks_first_success (blocks : List Block)
    (svc : ℕ → Except Unit (List TransItem)) (k : ℕ) (items : List TransItem)
    (hk : k < max_retries)
    (hfirst : ∀ j, j < k → attemptOutcome (translatableOf blocks) (svc j) = none)
    (hsvc : svc k = Except.ok items)
    (hne : items.isEmpty = false)
    (hzh : hasChinese items = true)
    (htr : (translatableOf blocks).isEmpty = false) :
    translate_page_blocks blocks svc = some (mergeItems (translatableOf blocks) items) := by
  simp only [translate_page_blocks, htr, Bool.false_eq_true, if_false]
  obtain ⟨rr, hrr⟩ : ∃ rr, max_retries - k = rr + 1 := ⟨max_retries - k - 1, by omega⟩
  have hsplit : max_retries = k + (rr + 1) := by omega
  rw [hsplit, retryFrom_skip (translatableOf blocks) svc k 0 (rr + 1)
    (fun j hj => by rw [Nat.zero_add]; exact hfirst j hj)]
  rw [Nat.zero_add]
  simp only [retryFrom, attemptOutcome, hsvc, hne, Bool.false_eq_true, if_false, hzh, if_true]

lemma translate_page_blocks_shape (blocks : List Block)
    (svc : ℕ → Except Unit (List TransItem)) (out : List Block)
    (h : translate_page_blocks blocks svc = some out) :
    out = [] ∨ ∃ items, out = mergeItems (translatableOf blocks) items := by
  simp only [translate_page_blocks] at h
  by_cases he : (translatableOf blocks).isEmpty = true
  · rw [if_pos he] at h
    simp at h
    exact Or.inl h
  · rw [if_neg he] at h
    obtain ⟨k, hatt⟩ := retryFrom_shape (translatableOf blocks) svc max_retries 0 out h
    obtain ⟨items, _, hout⟩ := attemptOutcome_some _ _ _ hatt
    exact Or.inr ⟨items, hout⟩

lemma translate_page_blocks_all_fail (blocks : List Block)
    (svc : ℕ → Except Unit (List TransItem))
    (htr : (translatableOf blocks).isEmpty = false)
    (hfail : ∀ j, j < max_retries → attemptOutcome (translatableOf blocks) (svc j) = none) :
    translate_page_blocks blocks svc = none := by
  simp only [translate_page_blocks, htr, Bool.false_eq_true, if_false]
  exact retryFrom_none (translatableOf blocks) svc max_retries 0
    (fun j hj => by rw [Nat.zero_add]; exact hfail j hj)

lemma translate_il_v2_length (svc : ℕ → ℕ → Except Unit (List TransItem)) :
    ∀ pages, (translate_il_v2 svc pages).1.length = pages.length := by
  intro pages
  induction pages with
  | nil => rfl
  | cons p rest ih =>
    cases h : translate_page_blocks p.blocks (svc p.page_index) <;>
      simp [translate_il_v2, h, ih]

lemma translate_il_v2_mem_failed (svc : ℕ → ℕ → Except Unit (List TransItem))
    (pages : List PageData) (p : PageData) (hp : p ∈ pages)
    (hnone : translate_page_blocks p.blocks (svc p.page_index) = none) :
    p ∈ (translate_il_v2 svc pages).1 ∧ (p.page_index + 1) ∈ (translate_il_v2 svc pages).2 := by
  induction pages with
  | nil => cases hp
  | cons q rest ih =>
    rcases List.mem_cons.mp hp with hq | hq
    · subst hq
      simp [translate_il_v2, hnone]
    · have ⟨h1, h2⟩ := ih hq
      cases h : translate_page_blocks q.blocks (svc q.page_index) <;>
        simp [translate_il_v2, h, h1, h2]

/-! ## Lemmas about the extractor and the merge field frame -/

lemma mergeItems_mem (t : List Block) (items : List TransItem) (b2 : Block)
    (hb : b2 ∈ mergeItems t items) :
    ∃ b, b ∈ t ∧ b.id = b2.id ∧ b.type = b2.type ∧ b.bbox = b2.bbox ∧ b.style = b2.style
      ∧ b.metadata = b2.metadata := by
  obtain ⟨b, hbt, heq⟩ := List.mem_filterMap.mp hb
  cases hl : result_lookup items b.id with
  | none =>
    rw [hl] at heq
    exact absurd heq (by simp)
  | some c =>
    rw [hl] at heq
    have hb2 : { b with content := replaceChar '\n' ' ' (strip c) } = b2 :=
      Option.some_inj.mp heq
    rw [← hb2]
    exact ⟨b, hbt, rfl, rfl, rfl, rfl, rfl⟩

lemma classify_block_mem (sd : StyleData) (bbox : BBox) (i : ℕ) :
    classify_block sd bbox i ∈
      ["heading", "sidebar", "caption", "label", "header", "footer", "body"] := by
  simp only [classify_block]
  split_ifs <;> simp

lemma extractPage_blocks_mem (p_idx : ℕ) (page : RawPage) (b : Block)
    (hb : b ∈ (extractPage p_idx page).blocks) :
    b.content ≠ "" ∧ b.type ∈
      ["heading", "sidebar", "caption", "label", "header", "footer", "body"] := by
  simp only [extractPage] at hb
  obtain ⟨rb, _, heq⟩ := List.mem_filterMap.mp hb
  by_cases ht : rb.type ≠ 0
  · rw [if_pos ht] at heq
    exact absurd heq (by simp)
  · rw [if_neg ht] at heq
    split at heq
    · exact absurd heq (by simp)
    · rename_i sd hsd
      split at heq
      · exact absurd heq (by simp)
      · rename_i hc
        have hbeq := Option.some_inj.mp heq
        rw [← hbeq]
        exact ⟨hc, classify_block_mem sd rb.bbox p_idx⟩

lemma extractPagesFrom_mem (pages : List RawPage) :
    ∀ (i : ℕ) (pd : PageData), pd ∈ extractPagesFrom i pages →
      ∃ j p, p ∈ pages ∧ pd = extractPage j p := by
  induction pages with
  | nil => intro i pd h; cases h
  | cons p ps ih =>
    intro i pd h
    rcases List.mem_cons.mp h with hh | hh
    · exact ⟨i, p, List.mem_cons_self p ps, hh⟩
    · obtain ⟨j, q, hq, hpd⟩ := ih (i + 1) pd hh
      exact ⟨j, q, List.mem_cons_of_mem p hq, hpd⟩

/-! ## Concrete pipeline data used by witnesses and counterexamples -/

/-- A plain body style, 12 point black sans text. -/
def exStyle : Style := ⟨12, "#000000", false, false, false, "helvetica"⟩

/-- A translatable body block with id a. -/
def blockA : Block := ⟨"a", "body", "First paragraph.", ⟨100, 600, 300, 620⟩, exStyle, ⟨0, 200, 20⟩⟩

/-- A translatable body block with id b. -/
def blockB : Block := ⟨"b", "body", "Second paragraph.", ⟨100, 560, 300, 580⟩, exStyle, ⟨0, 200, 20⟩⟩

/-- A response item translating only block a. -/
def itemA : TransItem := ⟨"a", "第一段"⟩

/-- A service that always answers with the single item for id a, so the
response has fewer items than a two-block request. -/
def svcPartial : ℕ → Except Unit (List TransItem) := fun _ => Except.ok [itemA]

/-- A service whose every call raises. -/
def svcFailAll : ℕ → ℕ → Except Unit (List TransItem) := fun _ _ => Except.error ()

/-- A one-page document holding the two translatable blocks. -/
def pageAB : PageData := ⟨0, 612, 792, [blockA, blockB]⟩

/-- Block a after the merge rewrote its content. -/
def blockATr : Block := { blockA with content := "第一段" }

/-! ## C1: merge of a successful translation response -/

/-- C1 (counterexample). On a page with translatable blocks a and b, a
successful response covering only id a yields an output page whose block
ids are exactly the list holding a: the id b present before translation is
gone from the page, so a block whose id was not returned does not keep its
original content but is dropped. -/
theorem c1_counterexample :
    (translate_page_blocks [blockA, blockB] svcPartial).map (fun l => l.map Block.id)
        = some ["a"]
    ∧ [blockA, blockB].map Block.id = ["a", "b"] := by decide

/-- C1 (amended). For every page whose translation call succeeds, no
exception is raised even when the response has fewer items than the
request: the stage returns the merge, and the merge keeps, in page order,
exactly those translatable blocks whose id is a key of the response
dictionary; blocks whose id was not returned are omitted from the output
page rather than kept with their original content. -/
theorem c1_theorem (blocks : List Block) (svc : ℕ → Except Unit (List TransItem)) (k : ℕ)
    (items : List TransItem) (hk : k < max_retries)
    (hfirst : ∀ j, j < k → attemptOutcome (translatableOf blocks) (svc j) = none)
    (hsvc : svc k = Except.ok items) (hne : items.isEmpty = false)
    (hzh : hasChinese items = true) (htr : (translatableOf blocks).isEmpty = false) :
    translate_page_blocks blocks svc = some (mergeItems (translatableOf blocks) items)
    ∧ (mergeItems (translatableOf blocks) items).map Block.id
        = ((translatableOf blocks).filter fun b => items.any fun it => it.id == b.id).map
            Block.id :=
  ⟨translate_page_blocks_first_success blocks svc k items hk hfirst hsvc hne hzh htr,
   mergeItems_map_id items (translatableOf blocks)⟩

/-- C1 (witness): the amended claim at the concrete two-block page and the
one-item response, every hypothesis discharged by evaluation. -/
theorem c1_witness :
    translate_page_blocks [blockA, blockB] svcPartial
        = some (mergeItems (translatableOf [blockA, blockB]) [itemA])
    ∧ (mergeItems (translatableOf [blockA, blockB]) [itemA]).map Block.id
        = ((translatableOf [blockA, blockB]).filter fun b =>
            [itemA].any fun it => it.id == b.id).map Block.id :=
  c1_theorem [blockA, blockB] svcPartial 0 [itemA] (by decide)
    (fun j hj => absurd hj (Nat.not_lt_zero j)) rfl rfl (by decide) (by decide)

/-! ## C4: a page whose translation fails on every attempt -/

/-- C4 (counterexample). A one-page run whose every service call raises:
the page with page index 0 fails, the failed-pages list is the list holding
1, and the page index 0 itself is not an element of that list (the code
records index plus one), while the page is carried through unchanged. -/
theorem c4_counterexample :
    (translate_il_v2 svcFailAll [pageAB]).2 = [1]
    ∧ pageAB.page_index = 0
    ∧ (0 : ℕ) ∉ (translate_il_v2 svcFailAll [pageAB]).2
    ∧ (translate_il_v2 svcFailAll [pageAB]).1 = [pageAB] := by decide

/-- C4 (amended). For every page whose translation fails on all attempts up
to the fixed retry ceiling, the page is carried into the output document
unchanged, its 1-based page number (page index plus one) is recorded in the
failed-pages list, and the stage completes over every input page without
aborting (the output has one page entry per input page). -/
theorem c4_theorem (pages : List PageData) (svc : ℕ → ℕ → Except Unit (List TransItem))
    (p : PageData) (hp : p ∈ pages)
    (htr : (translatableOf p.blocks).isEmpty = false)
    (hfail : ∀ j, j < max_retries →
      attemptOutcome (translatableOf p.blocks) (svc p.page_index j) = none) :
    p ∈ (translate_il_v2 svc pages).1
    ∧ (p.page_index + 1) ∈ (translate_il_v2 svc pages).2
    ∧ (translate_il_v2 svc pages).1.length = pages.length := by
  have hnone := translate_page_blocks_all_fail p.blocks (svc p.page_index) htr hfail
  have h12 := translate_il_v2_mem_failed svc pages p hp hnone
  exact ⟨h12.1, h12.2, translate_il_v2_length svc pages⟩

/-- C4 (witness): the amended claim at the concrete one-page document under
the always-raising service. -/
theorem c4_witness :
    pageAB ∈ (translate_il_v2 svcFailAll [pageAB]).1
    ∧ (pageAB.page_index + 1) ∈ (translate_il_v2 svcFailAll [pageAB]).2
    ∧ (translate_il_v2 svcFailAll [pageAB]).1.length = [pageAB].length :=
  c4_theorem [pageAB] svcFailAll pageAB (by decide) (by decide) (fun j _ => rfl)

/-! ## C7: translated blocks preserve id, type, bbox and style -/

/-- C7. Every block the translation stage outputs as translated corresponds
to an input block with the same id whose type, bbox and style fields it
carries unchanged; only the content field was rewritten by the merge. -/
theorem c7_theorem (blocks : List Block) (svc : ℕ → Except Unit (List TransItem))
    (out : List Block) (b2 : Block) (h : translate_page_blocks blocks svc = some out)
    (hb : b2 ∈ out) :
    ∃ b, b ∈ blocks ∧ b.id = b2.id ∧ b.type = b2.type ∧ b.bbox = b2.bbox
      ∧ b.style = b2.style := by
  rcases translate_page_blocks_shape blocks svc out h with hnil | ⟨items, hout⟩
  · rw [hnil] at hb
    cases hb
  · rw [hout] at hb
    obtain ⟨b, hbt, h1, h2, h3, h4, _⟩ := mergeItems_mem (translatableOf blocks) items b2 hb
    exact ⟨b, List.mem_of_mem_filter hbt, h1, h2, h3, h4⟩

/-- C7 (witness): the translated output block of the concrete run matches
its input block on id, type, bbox and style. -/
theorem c7_witness :
    ∃ b, b ∈ [blockA, blockB] ∧ b.id = blockATr.id ∧ b.type = blockATr.type
      ∧ b.bbox = blockATr.bbox ∧ b.style = blockATr.style :=
  c7_theorem [blockA, blockB] svcPartial [blockATr] blockATr (by decide) (by decide)

/-! ## C5: a block that fits at no size down to the floor -/

/-- C5. For every translatable block (not image or chart, non-empty cleaned
text) whose text fails to fit at every attempted size down to the 3-point
floor, the renderer produces the forced outcome: exactly one failed record
carrying the block id, the 1-based page number, the type, the 50-character
content preview, the original pre-padding box dimensions and the target
size, and the block is force-rendered at the floor size; the run never
aborts on overflow since the outcome is total. -/
theorem c5_theorem (fits : ℚ → ℚ → Bool) (page_idx : ℕ) (page_h : ℚ) (b : Block)
    (hty : (b.type == "image" || b.type == "chart") = false)
    (htext : (clean_text b.content == "") = false)
    (hfail : ∀ s ∈ attemptsGen next_size min_size (fitsAt fits (bheight b))
        (fuelGen min_size (1/10) (targetSizeOf b page_idx page_h))
        (targetSizeOf b page_idx page_h),
      fitsAt fits (bheight b) s = false) :
    renderBlockV2 fits page_idx page_h b =
      RenderOutcome.forced
        ⟨b.id, page_idx + 1, b.type, preview50 (clean_text b.content), bwidth b, bheight b,
          targetSizeOf b page_idx page_h⟩ min_size 1 := by
  have hloop := fitLoopGen_eq_none next_size min_size (fitsAt fits (bheight b)) _ _ hfail
  simp only [renderBlockV2, hty, htext, Bool.false_eq_true, if_false, hloop]

/-- A body block whose box is 100 by 15 points, as in the overflow scenario. -/
def blockTiny : Block :=
  ⟨"p0_x10_y707", "body", "A long paragraph that does not fit its small box at any size.",
    ⟨10, 692, 110, 707⟩, exStyle, ⟨0, 100, 15⟩⟩

/-- A layout oracle reporting overflow at every size and line height. -/
def fitsNever : ℚ → ℚ → Bool := fun _ _ => false

/-- C5 (witness): the concrete 100 by 15 body block under the always
overflowing layout oracle is force-rendered at the floor with its failed
record. -/
theorem c5_witness :
    renderBlockV2 fitsNever 0 792 blockTiny =
      RenderOutcome.forced
        ⟨blockTiny.id, 0 + 1, blockTiny.type, preview50 (clean_text blockTiny.content),
          bwidth blockTiny, bheight blockTiny, targetSizeOf blockTiny 0 792⟩ min_size 1 :=
  c5_theorem fitsNever 0 792 blockTiny (by decide) (by decide) (fun s _ => rfl)

/-! ## C8: the fitting loop shrinks strictly and stays above the floor -/

/-- C8. For both renderer fit loops (the v2 loop with floor 3 and adaptive
steps, and the v1 loop with floor 6 and half-point steps) and for every
layout oracle and starting size: the attempted sizes are strictly
decreasing, every attempted size is at least the floor, and the loop
terminates, in that the bounded fuel is already enough (giving the loop any
further fuel changes nothing). -/
theorem c8_theorem : ∀ (fits : ℚ → Bool) (f : ℚ),
    (List.Pairwise (fun a b => b < a)
        (attemptsGen next_size min_size fits (fuelGen min_size (1/10) f) f)
      ∧ (∀ s ∈ attemptsGen next_size min_size fits (fuelGen min_size (1/10) f) f,
          min_size ≤ s)
      ∧ ∀ m, attemptsGen next_size min_size fits (fuelGen min_size (1/10) f + m) f
          = attemptsGen next_size min_size fits (fuelGen min_size (1/10) f) f)
    ∧ (List.Pairwise (fun a b => b < a)
        (attemptsGen next_size_v1 min_size_v1 fits (fuelGen min_size_v1 (1/2) f) f)
      ∧ (∀ s ∈ attemptsGen next_size_v1 min_size_v1 fits (fuelGen min_size_v1 (1/2) f) f,
          min_size_v1 ≤ s)
      ∧ ∀ m, attemptsGen next_size_v1 min_size_v1 fits (fuelGen min_size_v1 (1/2) f + m) f
          = attemptsGen next_size_v1 min_size_v1 fits (fuelGen min_size_v1 (1/2) f) f) := by
  intro fits f
  refine ⟨⟨?_, ?_, ?_⟩, ?_, ?_, ?_⟩
  · exact attemptsGen_pairwise next_size min_size fits (1/10) (by norm_num) next_size_le _ _
  · exact fun s hs => attemptsGen_lower next_size min_size fits _ _ s hs
  · exact fun m =>
      attemptsGen_stable next_size min_size fits (1/10) (by norm_num) next_size_le _ f m le_rfl
  · exact attemptsGen_pairwise next_size_v1 min_size_v1 fits (1/2) (by norm_num)
      next_size_v1_le _ _
  · exact fun s hs => attemptsGen_lower next_size_v1 min_size_v1 fits _ _ s hs
  · exact fun m =>
      attemptsGen_stable next_size_v1 min_size_v1 fits (1/2) (by norm_num)
        next_size_v1_le _ f m le_rfl

/-! ## C3: the figure and table marker rule -/

/-- A block whose content opens with a figure marker but whose size is 18. -/
def sdHeading : StyleData := ⟨"Figure 3: results", ⟨18, "#000000", false, false, false, "helvetica"⟩⟩

/-- The same content at size 12, not bold. -/
def sdCaption : StyleData := ⟨"Figure 3: results", ⟨12, "#000000", false, false, false, "helvetica"⟩⟩

/-- A wide centered box (width 300, left edge 150) that matches neither the
sidebar rule nor the heading rule on its own. -/
def bbWide : BBox := ⟨150, 300, 450, 320⟩

/-- C3 (counterexample). The content Figure 3: results at size 18 is
classified heading, not caption: the heading rule is checked first, so the
marker rule does not fire regardless of content. -/
theorem c3_counterexample :
    classify_block sdHeading bbWide 0 = "heading"
    ∧ classify_block sdHeading bbWide 0 ≠ "caption" := by
  have h : classify_block sdHeading bbWide 0 = "heading" := by
    simp only [classify_block, sdHeading]
    norm_num
  exact ⟨h, by rw [h]; decide⟩

/-- C3 (amended). A block whose lowercased content begins with one of the
figure or table markers is classified caption whenever the two rules tried
earlier do not match, namely the heading rule (size above 14, or size above
11 and bold) and the sidebar rule (width under 250 hugging either margin);
within that proviso the size is arbitrary. -/
theorem c3_theorem (sd : StyleData) (bbox : BBox) (i : ℕ)
    (hhead : ¬(14 < sd.style.size ∨ (11 < sd.style.size ∧ sd.style.bold = true)))
    (hside : ¬(bbox.x1 - bbox.x0 < 250 ∧ (350 < bbox.x0 ∨ bbox.x0 < 100)))
    (hmark : (["figure", "table", "fig", "tab", "圖", "表"].any fun kw =>
        startsWithS (lowerS sd.content) kw) = true) :
    classify_block sd bbox i = "caption" := by
  simp only [classify_block]
  rw [if_neg hhead, if_neg hside, if_pos hmark]

/-- C3 (witness): Figure 3: results at size 12 in a wide centered box is
classified caption. -/
theorem c3_witness : classify_block sdCaption bbWide 0 = "caption" :=
  c3_theorem sdCaption bbWide 0 (by norm_num [sdCaption]) (by norm_num [bbWide]) (by decide)

/-! ## C6: the checkpoint file names at the stage boundaries -/

/-- C6. The v2 extraction stage writes intermediate_layer_v2.json but the
v2 translation stage reads intermediate_layer.json, so the first hand-off
file names differ; the translation output and the rendering input do agree
on translated_layer.json, and the validator reads the v2 extraction file
name that translation ignores. -/
theorem c6_theorem :
    extract_il_v2_output_file ≠ translate_il_v2_input_file
    ∧ translate_il_v2_output_file = render_pdf_v2_input_json
    ∧ validate_render_il_file = extract_il_v2_output_file := by decide

/-! ## C10: the block id as a function of truncated geometry -/

/-- C10. The block id depends only on the page index and the two truncated
coordinates int x0 and int (page height - y0), so blocks with identical
geometry always share an id; and two distinct geometries on the same page
whose coordinates truncate alike collide, witnessed at x0 10.2 and 10.7
with top edges 20.3 and 20.9 on a 700-point page. -/
theorem c10_theorem :
    (∀ (p : ℕ) (x0 y0 x0b y0b h : ℚ), pyint x0 = pyint x0b →
        pyint (h - y0) = pyint (h - y0b) → blockId p x0 y0 h = blockId p x0b y0b h)
    ∧ blockId 0 (51/5) (203/10) 700 = blockId 0 (107/10) (209/10) 700
    ∧ ¬((51/5 : ℚ) = 107/10 ∧ (203/10 : ℚ) = 209/10) := by
  refine ⟨?_, ?_, ?_⟩
  · intro p x0 y0 x0b y0b h h1 h2
    rw [blockId, blockId, h1, h2]
  · have h1 : pyint (51/5 : ℚ) = 10 := by norm_num [pyint]
    have h2 : pyint (107/10 : ℚ) = 10 := by norm_num [pyint]
    have h3 : pyint ((700 : ℚ) - 203/10) = 679 := by norm_num [pyint]
    have h4 : pyint ((700 : ℚ) - 209/10) = 679 := by norm_num [pyint]
    rw [blockId, blockId, h1, h2, h3, h4]
  · intro hcon
    have h5 := hcon.1
    norm_num at h5

/-- C10 (witness): the universal part applied at x0 values 10.25 and 10.5
with equal truncations. -/
theorem c10_witness : blockId 3 (41/4) 20 700 = blockId 3 (21/2) 20 700 :=
  c10_theorem.1 3 (41/4) 20 (21/2) 20 700 (by norm_num [pyint]) rfl

/-! ## C2: the coverage counting invariant and the pass threshold -/

/-- C2 (amended). Provided the extracted translatable blocks carry pairwise
distinct ids and the two log buckets are disjoint subsets of the extracted
ids, the validator counts satisfy fitted plus forced plus missing equals
the number of translatable blocks extracted; and on a non-empty extraction
it reports pass exactly when the successfully fitted fraction reaches the
fixed 95 percent threshold. -/
theorem c2_theorem (il : List PageData) (log : RenderLogFile)
    (hnodup : ((textBlocks il).map Block.id).Nodup)
    (hr : rendered_ids log ⊆ extracted_ids il)
    (hf : failed_ids log ⊆ extracted_ids il)
    (hdisj : Disjoint (rendered_ids log) (failed_ids log)) :
    ((rendered_ids log).card + (failed_ids log).card + (missing_ids il log).card
        = total_extracted il)
    ∧ (0 < total_extracted il →
        (validate_rendering il log = true ↔
          95 * (total_extracted il : ℚ) ≤ 100 * ((rendered_ids log).card : ℚ))) := by
  have hcardE : (extracted_ids il).card = total_extracted il := by
    rw [extracted_ids, List.toFinset_card_of_nodup hnodup, List.length_map]
    rfl
  have hsub : rendered_ids log ∪ failed_ids log ⊆ extracted_ids il :=
    Finset.union_subset hr hf
  have hmiss : missing_ids il log = extracted_ids il \ (rendered_ids log ∪ failed_ids log) := by
    rw [missing_ids]
    ext x
    simp only [Finset.mem_sdiff, Finset.mem_union]
    tauto
  have hcardM : (missing_ids il log).card
      = (extracted_ids il).card - ((rendered_ids log).card + (failed_ids log).card) := by
    rw [hmiss, Finset.card_sdiff hsub, Finset.card_union_of_disjoint hdisj]
  have hle : (rendered_ids log).card + (failed_ids log).card ≤ (extracted_ids il).card := by
    rw [← Finset.card_union_of_disjoint hdisj]
    exact Finset.card_le_card hsub
  refine ⟨by omega, ?_⟩
  intro hpos
  have hval : validate_rendering il log = true ↔ 95 ≤ success_rate il log := by
    simp [validate_rendering]
  rw [hval, success_rate, if_pos hpos]
  have ht : (0 : ℚ) < (total_extracted il : ℚ) := by exact_mod_cast hpos
  rw [div_mul_eq_mul_div, le_div_iff₀ ht]
  constructor <;> intro hh <;> linarith

/-- An intermediate document with the two distinct-id blocks, and a log
that fitted block a and forced nothing. -/
def ilAB : List PageData := [pageAB]

/-- A render log fitting the id a only. -/
def logA : RenderLogFile := ⟨[⟨"a", 1, "body", 9, 9, 200, 20⟩], []⟩

/-- C2 (witness): the amended claim at the concrete two-block document
whose log fitted one block, every proviso discharged by evaluation. -/
theorem c2_witness :
    ((rendered_ids logA).card + (failed_ids logA).card + (missing_ids ilAB logA).card
        = total_extracted ilAB)
    ∧ (0 < total_extracted ilAB →
        (validate_rendering ilAB logA = true ↔
          95 * (total_extracted ilAB : ℚ) ≤ 100 * ((rendered_ids logA).card : ℚ))) :=
  c2_theorem ilAB logA (by decide) (by decide) (by decide) (by decide)

/-- Two distinct blocks sharing the id dup, as the non-injective id scheme
can produce. -/
def blockDupA : Block := ⟨"dup", "body", "one", ⟨100, 600, 300, 620⟩, exStyle, ⟨0, 200, 20⟩⟩

/-- The second block with the same id dup. -/
def blockDupB : Block := ⟨"dup", "body", "two", ⟨100, 560, 300, 580⟩, exStyle, ⟨0, 200, 20⟩⟩

/-- A one-page document holding the two id-colliding blocks. -/
def ilDup : List PageData := [⟨0, 612, 792, [blockDupA, blockDupB]⟩]

/-- A log that fitted the shared id dup. -/
def logDup : RenderLogFile := ⟨[⟨"dup", 1, "body", 9, 9, 200, 20⟩], []⟩

/-- C2 (counterexample). With two extracted translatable blocks sharing one
id, both rendered under that id, the validator counts give fitted 1, forced
0, missing 0, while the number of translatable blocks extracted is 2: the
counting identity of the claim fails because the validator counts blocks
with multiplicity but ids as sets. -/
theorem c2_counterexample :
    ¬((rendered_ids logDup).card + (failed_ids logDup).card
        + (missing_ids ilDup logDup).card = total_extracted ilDup)
    ∧ (rendered_ids logDup).card + (failed_ids logDup).card
        + (missing_ids ilDup logDup).card = 1
    ∧ total_extracted ilDup = 2 := by decide

/-! ## C9: every v2-extracted block is non-empty text of the seven types -/

/-- C9. Every block of every page the v2 extractor emits has non-empty
content and one of the seven text types; in particular no image or chart
block ever appears, since non-text raw groups are skipped outright. -/
theorem c9_theorem (pages : List RawPage) (pd : PageData) (b : Block)
    (hpd : pd ∈ extract_pdf_style_aware pages) (hb : b ∈ pd.blocks) :
    b.content ≠ ""
    ∧ b.type ∈ ["heading", "sidebar", "caption", "label", "header", "footer", "body"] := by
  obtain ⟨j, p, _, hpd2⟩ := extractPagesFrom_mem pages 0 pd hpd
  rw [hpd2] at hb
  exact extractPage_blocks_mem j p b hb

/-- A raw page holding one text block of one span. -/
def exRawPage : RawPage := ⟨612, 792, [⟨0, ⟨150, 100, 500, 120⟩, [⟨[⟨"Hello world", 12, 0, "Helvetica"⟩]⟩]⟩]⟩

lemma exRawPage_blocks_ne : (extractPage 0 exRawPage).blocks ≠ [] := by decide

/-- C9 (witness): the block extracted from the concrete raw page has
non-empty content and one of the seven text types. -/
theorem c9_witness :
    ((extractPage 0 exRawPage).blocks.head exRawPage_blocks_ne).content ≠ ""
    ∧ ((extractPage 0 exRawPage).blocks.head exRawPage_blocks_ne).type
        ∈ ["heading", "sidebar", "caption", "label", "header", "footer", "body"] :=
  c9_theorem [exRawPage] (extractPage 0 exRawPage)
    ((extractPage 0 exRawPage).blocks.head exRawPage_blocks_ne)
    (List.mem_singleton.mpr rfl)
    (List.head_mem exRawPage_blocks_ne)

/-- C8 (witness): the termination conjunct applied at the always-failing
oracle and starting size 4 with five units of extra fuel. -/
theorem c8_witness :
    attemptsGen next_size min_size (fun _ => false) (fuelGen min_size (1/10) 4 + 5) 4
      = attemptsGen next_size min_size (fun _ => false) (fuelGen min_size (1/10) 4) 4 :=
  (c8_theorem (fun _ => false) 4).1.2.2 5
